import Mathlib

/-!
Shallow embedding of the e-ink flush/refresh engine of the ESP32 1.54in
e-paper + LVGL sample (file `eink_display.cpp`).  Machine bytes are `Nat`
values kept below 256; byte buffers are `List Nat`; the `uint8_t` update
counter is a `Nat` reduced modulo 256 at the increment.  External hardware
and toolkit calls (GxEPD2 page cycles, `lv_display_flush_ready`,
`lv_obj_invalidate`) are modelled by their observable outputs: pixel
streams and call counts.
-/

namespace Eink

/-- Panel width in pixels (GDEH0154D67 200x200 B/W panel, `SCREEN_WIDTH`). -/
def SCREEN_WIDTH : Nat := 200

/-- Panel height in pixels (`SCREEN_HEIGHT`). -/
def SCREEN_HEIGHT : Nat := 200

/-- Modelled from the spec: the `MAX_PARTIAL_UPDATES` threshold lives in
`config.h`, which is not among the sources; the spec fixes the scenario
value 30 ("fixed panel 200x200, THRESHOLD=30") and requires only that the
constant is an integer >= 1. -/
def MAX_PARTIAL_UPDATES : Nat := 30

/-- Byte size of the shadow framebuffer `full_frame_buffer`:
`(SCREEN_WIDTH * SCREEN_HEIGHT + 7) / 8` = 5000. -/
def FRAME_BYTES : Nat := (SCREEN_WIDTH * SCREEN_HEIGHT + 7) / 8

/-- Byte size of `full_refresh_row_bitmap`: `(SCREEN_HEIGHT + 7) / 8` = 25. -/
def ROW_BITMAP_BYTES : Nat := (SCREEN_HEIGHT + 7) / 8

/-- The driver's mutable globals: the partial update counter (a `uint8_t` in
the source, hence kept below 256 with a modulo at the increment), the 1-bit
shadow framebuffer, the full-refresh-pending flag, and the row coverage
bitmap. -/
structure EinkState where
  partial_update_count : Nat
  full_frame_buffer : List Nat
  full_refresh_pending : Bool
  full_refresh_row_bitmap : List Nat
deriving DecidableEq

/-- Source `set_full_frame_pixel`: store one pixel into the shadow framebuffer.
The source computes `bit_index = y * SCREEN_WIDTH + x`, byte index
`bit_index / 8` and mask `0x80 >> (bit_index % 8)`, then ORs the mask in
for black or ANDs its `uint8_t` complement (`0xFF ^ mask`) for white. -/
def set_full_frame_pixel (fb : List Nat) (x y : Nat) (is_black : Bool) : List Nat :=
  let bit_index := y * SCREEN_WIDTH + x
  let byte_index := bit_index / 8
  let bit_mask := 128 >>> (bit_index % 8)
  if is_black then
    fb.set byte_index ((fb.getD byte_index 0) ||| bit_mask)
  else
    fb.set byte_index ((fb.getD byte_index 0) &&& (255 ^^^ bit_mask))

/-- Source `get_full_frame_pixel`: read one pixel back from the shadow
framebuffer (`(byte & (0x80 >> (bit_index % 8))) != 0`). -/
def get_full_frame_pixel (fb : List Nat) (x y : Nat) : Bool :=
  let bit_index := y * SCREEN_WIDTH + x
  let byte_index := bit_index / 8
  let bit_mask := 128 >>> (bit_index % 8)
  ((fb.getD byte_index 0) &&& bit_mask) != 0

/-- One source pixel of the LVGL I1 payload (palette header already
skipped): byte `y * stride + x / 8`, bit `7 - x % 8` (MSB first). -/
def lvgl_pixel (px : List Nat) (stride y x : Nat) : Nat :=
  ((px.getD (y * stride + x / 8) 0) >>> (7 - x % 8)) &&& 1

/-- One converted destination byte of `my_disp_flush`'s conversion loop:
for each bit 0..7, pixel x = `byte_x * 8 + bit`; if `x < w` and the LVGL
pixel is 0 (black) the GxEPD2 bit `0x80 >> bit` is set; trailing bits past
`w` stay 0. -/
def convert_byte (px : List Nat) (w y byte_x : Nat) : Nat :=
  (List.range 8).foldl
    (fun epd_byte bit =>
      let x := byte_x * 8 + bit
      if x < w then
        if lvgl_pixel px ((w + 7) / 8) y x == 0 then
          epd_byte ||| (128 >>> bit)
        else
          epd_byte
      else epd_byte)
    0

/-- The converted scratch buffer `epd_buffer`: `h` rows of
`epd_stride = (w + 7) / 8` bytes, row `y` byte `byte_x` holding
`convert_byte`. -/
def convert_buffer (w h : Nat) (px : List Nat) : List Nat :=
  (List.range h).flatMap
    (fun y => (List.range ((w + 7) / 8)).map (fun byte_x => convert_byte px w y byte_x))

/-- The shadow-framebuffer side effect of the conversion loop: for every
row `y < h` and pixel `x < w` (the source enumerates `x` as
`byte_x * 8 + bit` over `epd_stride` bytes and skips `x >= w`), record the
resolved black/white state at absolute coordinates
`(area.x1 + x, area.y1 + y)`. -/
def flush_write_frame (fb : List Nat) (x1 y1 w h : Nat) (px : List Nat) : List Nat :=
  (List.range h).foldl
    (fun b y =>
      (List.range (((w + 7) / 8) * 8)).foldl
        (fun b2 x =>
          if x < w then
            set_full_frame_pixel b2 (x1 + x) (y1 + y) (lvgl_pixel px ((w + 7) / 8) y x == 0)
          else b2)
        b)
    fb

/-- Source `mark_rows_covered`: the loop
`for (row = y1; row <= y2 && row < SCREEN_HEIGHT; row++)` ORs bit
`1 << (row % 8)` into bitmap byte `row / 8`.  The iterated rows are exactly
`y1, ..., min y2 (SCREEN_HEIGHT - 1)`, i.e. `min (y2+1) SCREEN_HEIGHT - y1`
of them. -/
def mark_rows_covered (bm : List Nat) (y1 y2 : Nat) : List Nat :=
  (List.range' y1 (min (y2 + 1) SCREEN_HEIGHT - y1)).foldl
    (fun b row => b.set (row / 8) ((b.getD (row / 8) 0) ||| (1 <<< (row % 8))))
    bm

/-- Row `r` of the coverage bitmap, as the source reads it:
bit `r % 8` of byte `r / 8`. -/
def rowCovered (bm : List Nat) (r : Nat) : Bool :=
  (bm.getD (r / 8) 0).testBit (r % 8)

/-- Source `all_rows_covered`: every full byte must equal 0xFF, and if
`SCREEN_HEIGHT` is not a byte multiple the remaining low bits of the last
byte must all be set. -/
def all_rows_covered (bm : List Nat) : Bool :=
  let total_rows := SCREEN_HEIGHT
  let full_bytes := total_rows / 8
  if (List.range full_bytes).all (fun i => bm.getD i 0 == 255) then
    (let remaining_bits := total_rows % 8
     if remaining_bits == 0 then true
     else
       ((bm.getD full_bytes 0) &&& ((1 <<< remaining_bits) - 1))
         == ((1 <<< remaining_bits) - 1))
  else false

/-- The pixel stream `perform_full_refresh` replays to the hardware:
`writePixel` for every panel coordinate in row-major order, reading
`get_full_frame_pixel`. -/
def full_refresh_replay (fb : List Nat) : List Bool :=
  (List.range SCREEN_HEIGHT).flatMap
    (fun y => (List.range SCREEN_WIDTH).map (fun x => get_full_frame_pixel fb x y))

/-- Source `perform_full_refresh`: hibernate/reinit/full-window replay of the
shadow framebuffer (returned as the pixel stream; the framebuffer itself is
only read), then `partial_update_count = 0`, `full_refresh_pending = false`
and `memset(full_refresh_row_bitmap, 0, ...)`. -/
def perform_full_refresh (s : EinkState) : EinkState × List Bool :=
  ({ s with
      partial_update_count := 0
      full_refresh_pending := false
      full_refresh_row_bitmap := List.replicate ROW_BITMAP_BYTES 0 },
   full_refresh_replay s.full_frame_buffer)

/-- Source `schedule_full_refresh_request`: no-op while already pending, else set
the pending flag and clear the row bitmap. -/
def schedule_full_refresh_request (s : EinkState) : EinkState :=
  if s.full_refresh_pending then s
  else
    { s with
        full_refresh_pending := true
        full_refresh_row_bitmap := List.replicate ROW_BITMAP_BYTES 0 }

/-- Observable outcome of `eink_force_full_refresh`:
the new state and the number of `lv_obj_invalidate(lv_screen_active())`
calls issued. -/
structure CheckOut where
  state : EinkState
  invalidate_calls : Nat
deriving DecidableEq

/-- Source `eink_force_full_refresh`: return early while pending; otherwise, when
`partial_update_count >= MAX_PARTIAL_UPDATES`, schedule the full refresh
and invalidate the whole active screen. -/
def eink_force_full_refresh (s : EinkState) : CheckOut :=
  if s.full_refresh_pending then { state := s, invalidate_calls := 0 }
  else if MAX_PARTIAL_UPDATES ≤ s.partial_update_count then
    { state := schedule_full_refresh_request s, invalidate_calls := 1 }
  else { state := s, invalidate_calls := 0 }

/-- The `writePixel` stream of the partial-window page loop: for each row
`y < h` and each `x = byte_x * 8 + bit < w`, the pixel at
`(area.x1 + x, area.y1 + y)` is black iff bit `0x80 >> bit` of converted
byte `y * stride + byte_x` is set. -/
def hw_stream (x1 y1 w h : Nat) (px : List Nat) : List (Nat × Nat × Bool) :=
  (List.range h).flatMap
    (fun y =>
      (List.range (((w + 7) / 8) * 8)).filterMap
        (fun x =>
          if x < w then
            some (x1 + x, y1 + y,
              (((convert_buffer w h px).getD (y * ((w + 7) / 8) + x / 8) 0)
                &&& (128 >>> (x % 8))) != 0)
          else none))

/-- Observable outcome of one `my_disp_flush` call: the new driver state,
the converted scratch buffer (`none` when `malloc` failed), the
`writePixel` stream of the windowed hardware update (empty on the degraded
error path), whether `perform_full_refresh` ran during this flush, and the
number of `lv_display_flush_ready` calls. -/
structure FlushOut where
  state : EinkState
  epd_buffer : Option (List Nat)
  hw_pixels : List (Nat × Nat × Bool)
  did_full_refresh : Bool
  flush_ready_calls : Nat
deriving DecidableEq

/-- Source `my_disp_flush`: skip the 8-byte palette header, increment the counter
(uint8_t), convert and write pixels when the scratch allocation succeeded
(else run the empty page cycle), then, if a full refresh is pending, mark
the flushed rows and run `perform_full_refresh` once every row is covered;
finally acknowledge the flush exactly once. -/
def my_disp_flush (s : EinkState) (x1 y1 x2 y2 : Nat) (px_map : List Nat)
    (alloc_ok : Bool) : FlushOut :=
  let px := px_map.drop 8
  let w := x2 - x1 + 1
  let h := y2 - y1 + 1
  let s1 : EinkState :=
    { s with partial_update_count := (s.partial_update_count + 1) % 256 }
  let s2 : EinkState :=
    if alloc_ok then
      { s1 with full_frame_buffer := flush_write_frame s1.full_frame_buffer x1 y1 w h px }
    else s1
  let epd : Option (List Nat) :=
    if alloc_ok then some (convert_buffer w h px) else none
  let hw : List (Nat × Nat × Bool) :=
    if alloc_ok then hw_stream x1 y1 w h px else []
  if s2.full_refresh_pending then
    let bm := mark_rows_covered s2.full_refresh_row_bitmap y1 y2
    if all_rows_covered bm then
      { state := (perform_full_refresh { s2 with full_refresh_row_bitmap := bm }).1
        epd_buffer := epd
        hw_pixels := hw
        did_full_refresh := true
        flush_ready_calls := 1 }
    else
      { state := { s2 with full_refresh_row_bitmap := bm }
        epd_buffer := epd
        hw_pixels := hw
        did_full_refresh := false
        flush_ready_calls := 1 }
  else
    { state := s2
      epd_buffer := epd
      hw_pixels := hw
      did_full_refresh := false
      flush_ready_calls := 1 }

/-- The two engine entry points an execution interleaves: a toolkit flush
(with its rectangle, raw I1 payload, and whether the scratch allocation
succeeds) and the main loop's threshold check. -/
inductive Op where
  | flush (x1 y1 x2 y2 : Nat) (px_map : List Nat) (alloc_ok : Bool)
  | check
deriving DecidableEq

/-- The toolkit contract: flush rectangles lie within panel bounds. -/
def inBounds : Op → Bool
  | Op.flush x1 y1 x2 y2 _ _ =>
      decide (x1 ≤ x2) && decide (x2 < SCREEN_WIDTH)
        && decide (y1 ≤ y2) && decide (y2 < SCREEN_HEIGHT)
  | Op.check => true

/-- State transition of one operation. -/
def step (s : EinkState) : Op → EinkState
  | Op.flush x1 y1 x2 y2 px ok => (my_disp_flush s x1 y1 x2 y2 px ok).state
  | Op.check => (eink_force_full_refresh s).state

/-- Startup state: counter 0, zeroed framebuffer, no refresh pending,
zeroed row bitmap. -/
def initState : EinkState :=
  { partial_update_count := 0
    full_frame_buffer := List.replicate FRAME_BYTES 0
    full_refresh_pending := false
    full_refresh_row_bitmap := List.replicate ROW_BITMAP_BYTES 0 }

/-- Execute a sequence of operations from startup. -/
def run (ops : List Op) : EinkState := ops.foldl step initState

/-- A state is reachable when some in-bounds operation sequence starting at
the startup state produces it. -/
def Reachable (s : EinkState) : Prop :=
  ∃ ops : List Op, (∀ op ∈ ops, inBounds op = true) ∧ run ops = s

/-- Structural well-formedness: buffers have their declared sizes, all
bytes are machine bytes, and the uint8_t counter is below 256. -/
def WF (s : EinkState) : Prop :=
  s.full_frame_buffer.length = FRAME_BYTES
    ∧ (∀ b ∈ s.full_frame_buffer, b < 256)
    ∧ s.full_refresh_row_bitmap.length = ROW_BITMAP_BYTES
    ∧ (∀ b ∈ s.full_refresh_row_bitmap, b < 256)
    ∧ s.partial_update_count < 256

/-- The colour a single operation resolves for panel pixel `(X, Y)`:
`some c` when the operation is a successful flush whose rectangle covers
the pixel (`c` = resolved black state), `none` otherwise. -/
def colorAt : Op → Nat → Nat → Option Bool
  | Op.flush x1 y1 x2 y2 px ok, X, Y =>
      if ok ∧ x1 ≤ X ∧ X ≤ x2 ∧ y1 ≤ Y ∧ Y ≤ y2 then
        some (lvgl_pixel (px.drop 8) ((x2 - x1 + 1 + 7) / 8) (Y - y1) (X - x1) == 0)
      else none
  | Op.check, _, _ => none

/-- The most recent colour an operation sequence flushed to `(X, Y)`, if
any operation covered it. -/
def lastWrite (ops : List Op) (X Y : Nat) : Option Bool :=
  ops.foldl
    (fun acc op =>
      match colorAt op X Y with
      | some c => some c
      | none => acc)
    none

/-- A 1x1 flush at the panel origin whose scratch allocation fails: the
cheapest counter-incrementing operation. -/
def tinyFailFlush : Op := Op.flush 0 0 0 0 [] false

/-- Thirty failing 1x1 flushes: brings the counter to the threshold. -/
def opsToThreshold : List Op := List.replicate MAX_PARTIAL_UPDATES tinyFailFlush

/-- Thirty flushes followed by one threshold check: arms the full refresh. -/
def opsArmed : List Op := opsToThreshold ++ [Op.check]

/-- A list of 255 failing flushes: drives the uint8_t counter to its maximum. -/
def opsToWrap : List Op := List.replicate 255 tinyFailFlush

/-! ### Generic list and bit helpers -/

theorem range'_concat (s n : Nat) : List.range' s (n + 1) = List.range' s n ++ [s + n] := by
  have h := List.range'_append s n 1 1
  simp only [List.range'] at h
  rw [Nat.add_comm 1 n] at h
  simpa using h.symm

theorem getD_set_self {α} (l : List α) (i : Nat) (v d : α) (h : i < l.length) :
    (l.set i v).getD i d = v := by
  rw [List.getD_eq_getElem?_getD, List.getElem?_set_self h]
  rfl

theorem getD_set_ne {α} (l : List α) (i j : Nat) (v : α) (d : α) (h : i ≠ j) :
    (l.set i v).getD j d = l.getD j d := by
  rw [List.getD_eq_getElem?_getD, List.getElem?_set_ne h, ← List.getD_eq_getElem?_getD]

theorem getD_lt_256 {l : List Nat} (h : ∀ c ∈ l, c < 256) (i : Nat) : l.getD i 0 < 256 := by
  rcases Nat.lt_or_ge i l.length with hi | hi
  · rw [List.getD_eq_getElem?_getD, List.getElem?_eq_getElem hi]
    exact h _ (List.getElem_mem hi)
  · rw [List.getD_eq_getElem?_getD, List.getElem?_eq_none hi]
    norm_num

theorem shiftRight_128 (k : Nat) (hk : k < 8) : (128 : Nat) >>> k = 2 ^ (7 - k) := by
  rw [show (128 : Nat) = 2 ^ 7 by norm_num, Nat.shiftRight_eq_div_pow,
    Nat.pow_div (by omega) (by norm_num)]

theorem and_pow_bne_zero (a j : Nat) : ((a &&& 2 ^ j) != 0) = a.testBit j := by
  rw [Nat.and_two_pow]
  cases h : a.testBit j
  · simp
  · simp only [Bool.toNat_true, Nat.one_mul, bne_iff_ne, ne_eq]
    exact (Nat.pos_pow_of_pos j (by norm_num)).ne'

theorem testBit_and_compl_self (a k : Nat) (hk : k < 8) :
    (a &&& (255 ^^^ 2 ^ k)).testBit k = false := by
  rw [Nat.testBit_and, Nat.testBit_xor, show (255 : Nat) = 2 ^ 8 - 1 by norm_num,
    Nat.testBit_two_pow_sub_one, Nat.testBit_two_pow]
  simp [hk]

theorem testBit_and_compl_ne (a k j : Nat) (hj : j < 8) (hne : j ≠ k) :
    (a &&& (255 ^^^ 2 ^ k)).testBit j = a.testBit j := by
  have hkj : ¬ k = j := fun h => hne h.symm
  rw [Nat.testBit_and, Nat.testBit_xor, show (255 : Nat) = 2 ^ 8 - 1 by norm_num,
    Nat.testBit_two_pow_sub_one, Nat.testBit_two_pow]
  simp [hj, hkj]

theorem testBit_or_pow_self (a k : Nat) : (a ||| 2 ^ k).testBit k = true := by
  rw [Nat.testBit_or, Nat.testBit_two_pow]
  simp

theorem testBit_or_pow_ne (a k j : Nat) (hne : j ≠ k) :
    (a ||| 2 ^ k).testBit j = a.testBit j := by
  have hkj : ¬ k = j := fun h => hne h.symm
  rw [Nat.testBit_or, Nat.testBit_two_pow]
  simp [hkj]

/-- Bit view of the source's byte-building loop: starting from accumulator
`a` and OR-ing `0x80 >> bit` for every `bit < n` with `p bit` set, bit
position `k` ends up set iff it was set in `a` or `p (7 - k)` holds with
`7 - k` among the processed bits. -/
theorem foldl_setbits_testBit (p : Nat → Bool) :
    ∀ n, n ≤ 8 → ∀ (a k : Nat), k < 8 →
      (((List.range n).foldl
          (fun acc bit => if p bit then acc ||| (128 >>> bit) else acc) a)).testBit k
        = (a.testBit k || (decide (7 - k < n) && p (7 - k))) := by
  intro n
  induction n with
  | zero => intro _ a k hk; simp
  | succ n ih =>
    intro hn a k hk
    rw [List.range_succ, List.foldl_append, List.foldl_cons, List.foldl_nil]
    have hn8 : n < 8 := by omega
    by_cases hpn : p n = true
    · rw [hpn, if_pos rfl, shiftRight_128 n hn8, Nat.testBit_or,
        ih (by omega) a k hk, Nat.testBit_two_pow]
      by_cases h7 : 7 - k = n
      · have hkn : 7 - n = k := by omega
        have h1 : decide (7 - n = k) = true := by simp [hkn]
        have h2 : decide (7 - k < n + 1) = true := by simp; omega
        rw [h1, h2, h7, hpn]
        simp
      · have h1 : decide (7 - n = k) = false := by
          simp only [decide_eq_false_iff_not]
          omega
        have h2 : decide (7 - k < n + 1) = decide (7 - k < n) := by
          rw [decide_eq_decide]; omega
        rw [h1, h2]
        simp
    · have hpn' : p n = false := by simpa using hpn
      rw [hpn', if_neg (by simp), ih (by omega) a k hk]
      by_cases h7 : 7 - k = n
      · rw [h7, hpn']
        simp
      · have h2 : decide (7 - k < n + 1) = decide (7 - k < n) := by
          rw [decide_eq_decide]; omega
        rw [h2]

/-- Indexing into a flat row-major list of `h` rows of length `L`. -/
theorem getD_flatMap_map {α} (d : α) (L : Nat) :
    ∀ (h : Nat) (g : Nat → Nat → α) (y j : Nat), y < h → j < L →
      (((List.range h).flatMap (fun y' => (List.range L).map (g y'))).getD (y * L + j) d)
        = g y j := by
  intro h
  induction h with
  | zero => intro g y j hy; omega
  | succ h ih =>
    intro g y j hy hj
    rw [List.range_succ_eq_map, List.flatMap_cons, List.flatMap_map]
    cases y with
    | zero =>
      rw [Nat.zero_mul, Nat.zero_add, List.getD_append _ _ _ _ (by simpa using hj)]
      rw [List.getD_eq_getElem?_getD, List.getElem?_map, List.getElem?_range hj]
      simp
    | succ y =>
      have hlen : ((List.range L).map (g 0)).length = L := by simp
      rw [List.getD_append_right _ _ _ _
        (by
          rw [hlen]
          exact le_trans (Nat.le_mul_of_pos_left L (Nat.succ_pos y)) (Nat.le_add_right _ j))]
      rw [hlen, show (y + 1) * L + j - L = y * L + j by
        rw [Nat.succ_mul, Nat.add_right_comm, Nat.add_sub_cancel]]
      have hih := ih (fun y' => g (y' + 1)) y j (by omega) hj
      simpa using hih

/-! ### Shadow framebuffer pixel lemmas -/

theorem or_lt_256 {a b : Nat} (ha : a < 256) (hb : b < 256) : a ||| b < 256 := by
  have h256 : (256 : Nat) = 2 ^ 8 := by norm_num
  rw [h256] at ha hb ⊢
  exact Nat.or_lt_two_pow ha hb

theorem get_pixel_eq_testBit (fb : List Nat) (x y : Nat) :
    get_full_frame_pixel fb x y
      = (fb.getD ((y * SCREEN_WIDTH + x) / 8) 0).testBit (7 - (y * SCREEN_WIDTH + x) % 8) := by
  simp only [get_full_frame_pixel]
  rw [shiftRight_128 _ (Nat.mod_lt _ (by norm_num)), and_pow_bne_zero]

theorem set_pixel_length (fb : List Nat) (x y : Nat) (b : Bool) :
    (set_full_frame_pixel fb x y b).length = fb.length := by
  simp only [set_full_frame_pixel]
  cases b <;> simp

theorem set_pixel_bytes (fb : List Nat) (hb : ∀ c ∈ fb, c < 256) (x y : Nat) (b : Bool) :
    ∀ c ∈ set_full_frame_pixel fb x y b, c < 256 := by
  intro c hc
  simp only [set_full_frame_pixel] at hc
  have hmask : (128 : Nat) >>> ((y * SCREEN_WIDTH + x) % 8) < 256 := by
    rw [shiftRight_128 _ (Nat.mod_lt _ (by norm_num))]
    calc 2 ^ (7 - (y * SCREEN_WIDTH + x) % 8) ≤ 2 ^ 7 :=
          Nat.pow_le_pow_right (by norm_num) (by omega)
      _ < 256 := by norm_num
  cases b with
  | true =>
    rw [if_pos rfl] at hc
    rcases List.mem_or_eq_of_mem_set hc with h | h
    · exact hb c h
    · subst h; exact or_lt_256 (getD_lt_256 hb _) hmask
  | false =>
    rw [if_neg Bool.false_ne_true] at hc
    rcases List.mem_or_eq_of_mem_set hc with h | h
    · exact hb c h
    · subst h
      exact lt_of_le_of_lt Nat.and_le_left (getD_lt_256 hb _)

theorem get_set_pixel_same (fb : List Nat) (x y : Nat) (b : Bool)
    (hlen : fb.length = FRAME_BYTES) (hx : x < SCREEN_WIDTH) (hy : y < SCREEN_HEIGHT) :
    get_full_frame_pixel (set_full_frame_pixel fb x y b) x y = b := by
  have hx' : x < 200 := hx
  have hy' : y < 200 := hy
  have hlt : (y * SCREEN_WIDTH + x) / 8 < fb.length := by
    rw [hlen]
    show (y * 200 + x) / 8 < 5000
    omega
  have hk : (y * SCREEN_WIDTH + x) % 8 < 8 := Nat.mod_lt _ (by norm_num)
  rw [get_pixel_eq_testBit]
  simp only [set_full_frame_pixel]
  cases b with
  | true =>
    rw [if_pos rfl, getD_set_self _ _ _ _ hlt, shiftRight_128 _ hk, testBit_or_pow_self]
  | false =>
    rw [if_neg Bool.false_ne_true, getD_set_self _ _ _ _ hlt, shiftRight_128 _ hk,
      testBit_and_compl_self _ _ (by omega)]

theorem get_set_pixel_ne (fb : List Nat) (x y X Y : Nat) (b : Bool)
    (hlen : fb.length = FRAME_BYTES) (hx : x < SCREEN_WIDTH) (hy : y < SCREEN_HEIGHT)
    (hX : X < SCREEN_WIDTH) (hY : Y < SCREEN_HEIGHT) (hne : ¬(X = x ∧ Y = y)) :
    get_full_frame_pixel (set_full_frame_pixel fb x y b) X Y
      = get_full_frame_pixel fb X Y := by
  have hx' : x < 200 := hx
  have hy' : y < 200 := hy
  have hX' : X < 200 := hX
  have hY' : Y < 200 := hY
  have hidx : y * SCREEN_WIDTH + x ≠ Y * SCREEN_WIDTH + X := by
    show y * 200 + x ≠ Y * 200 + X
    omega
  have hlt : (y * SCREEN_WIDTH + x) / 8 < fb.length := by
    rw [hlen]
    show (y * 200 + x) / 8 < 5000
    omega
  have hk : (y * SCREEN_WIDTH + x) % 8 < 8 := Nat.mod_lt _ (by norm_num)
  have hK : (Y * SCREEN_WIDTH + X) % 8 < 8 := Nat.mod_lt _ (by norm_num)
  rw [get_pixel_eq_testBit, get_pixel_eq_testBit]
  simp only [set_full_frame_pixel]
  rcases eq_or_ne ((y * SCREEN_WIDTH + x) / 8) ((Y * SCREEN_WIDTH + X) / 8) with hbe | hbe
  · have hbit : (y * SCREEN_WIDTH + x) % 8 ≠ (Y * SCREEN_WIDTH + X) % 8 := by omega
    cases b with
    | true =>
      rw [if_pos rfl, ← hbe, getD_set_self _ _ _ _ hlt, shiftRight_128 _ hk,
        testBit_or_pow_ne _ _ _ (by omega)]
    | false =>
      rw [if_neg Bool.false_ne_true, ← hbe, getD_set_self _ _ _ _ hlt, shiftRight_128 _ hk,
        testBit_and_compl_ne _ _ _ (by omega) (by omega)]
  · cases b with
    | true => rw [if_pos rfl, getD_set_ne _ _ _ _ _ hbe]
    | false => rw [if_neg Bool.false_ne_true, getD_set_ne _ _ _ _ _ hbe]

/-! ### Conversion-loop framebuffer effect -/

theorem row_fold_length (x1 yabs w st yrow : Nat) (px : List Nat) :
    ∀ (n : Nat) (b : List Nat),
      ((List.range n).foldl
        (fun b2 x =>
          if x < w then
            set_full_frame_pixel b2 (x1 + x) yabs (lvgl_pixel px st yrow x == 0)
          else b2) b).length = b.length := by
  intro n
  induction n with
  | zero => intro b; simp
  | succ n ih =>
    intro b
    rw [List.range_succ, List.foldl_append, List.foldl_cons, List.foldl_nil]
    by_cases hnw : n < w
    · rw [if_pos hnw, set_pixel_length, ih]
    · rw [if_neg hnw, ih]

theorem row_fold_bytes (x1 yabs w st yrow : Nat) (px : List Nat) :
    ∀ (n : Nat) (b : List Nat), (∀ c ∈ b, c < 256) →
      ∀ c ∈ ((List.range n).foldl
        (fun b2 x =>
          if x < w then
            set_full_frame_pixel b2 (x1 + x) yabs (lvgl_pixel px st yrow x == 0)
          else b2) b), c < 256 := by
  intro n
  induction n with
  | zero => intro b hb; simpa using hb
  | succ n ih =>
    intro b hb
    rw [List.range_succ, List.foldl_append, List.foldl_cons, List.foldl_nil]
    by_cases hnw : n < w
    · rw [if_pos hnw]
      exact set_pixel_bytes _ (ih b hb) _ _ _
    · rw [if_neg hnw]
      exact ih b hb

theorem row_fold_get (x1 yabs w st yrow : Nat) (px : List Nat) (X Y : Nat)
    (hX : X < SCREEN_WIDTH) (hY : Y < SCREEN_HEIGHT) (hyabs : yabs < SCREEN_HEIGHT)
    (hw : x1 + w ≤ SCREEN_WIDTH) :
    ∀ (n : Nat) (b : List Nat), b.length = FRAME_BYTES →
      get_full_frame_pixel
        ((List.range n).foldl
          (fun b2 x =>
            if x < w then
              set_full_frame_pixel b2 (x1 + x) yabs (lvgl_pixel px st yrow x == 0)
            else b2) b) X Y
        = if Y = yabs ∧ x1 ≤ X ∧ X < x1 + min n w
          then (lvgl_pixel px st yrow (X - x1) == 0)
          else get_full_frame_pixel b X Y := by
  intro n
  induction n with
  | zero =>
    intro b _
    rw [List.range_zero, List.foldl_nil, if_neg (by omega)]
  | succ n ih =>
    intro b hb
    rw [List.range_succ, List.foldl_append, List.foldl_cons, List.foldl_nil]
    have hTlen : (((List.range n).foldl
        (fun b2 x =>
          if x < w then
            set_full_frame_pixel b2 (x1 + x) yabs (lvgl_pixel px st yrow x == 0)
          else b2) b)).length = FRAME_BYTES := by
      rw [row_fold_length, hb]
    by_cases hnw : n < w
    · rw [if_pos hnw]
      by_cases hhit : X = x1 + n ∧ Y = yabs
      · obtain ⟨hX1, hY1⟩ := hhit
        rw [hX1, hY1,
          get_set_pixel_same _ _ _ _ hTlen (by omega) hyabs,
          if_pos (by omega : yabs = yabs ∧ x1 ≤ x1 + n ∧ x1 + n < x1 + min (n + 1) w)]
        rw [Nat.add_sub_cancel_left]
      · rw [get_set_pixel_ne _ _ _ _ _ _ hTlen (by omega) hyabs hX hY hhit, ih b hb]
        exact if_congr (by omega) rfl rfl
    · rw [if_neg hnw, ih b hb]
      exact if_congr (by omega) rfl rfl

theorem flush_write_frame_length (fb : List Nat) (x1 y1 w : Nat) (px : List Nat) :
    ∀ h : Nat, (flush_write_frame fb x1 y1 w h px).length = fb.length := by
  intro h
  induction h with
  | zero => simp [flush_write_frame]
  | succ h ih =>
    show ((List.range (h + 1)).foldl _ fb).length = fb.length
    rw [List.range_succ, List.foldl_append, List.foldl_cons, List.foldl_nil]
    rw [row_fold_length x1 (y1 + h) w ((w + 7) / 8) h px]
    exact ih

theorem flush_write_frame_bytes (fb : List Nat) (hb : ∀ c ∈ fb, c < 256)
    (x1 y1 w : Nat) (px : List Nat) :
    ∀ h : Nat, ∀ c ∈ flush_write_frame fb x1 y1 w h px, c < 256 := by
  intro h
  induction h with
  | zero => simpa [flush_write_frame] using hb
  | succ h ih =>
    show ∀ c ∈ (List.range (h + 1)).foldl _ fb, c < 256
    rw [List.range_succ, List.foldl_append, List.foldl_cons, List.foldl_nil]
    exact row_fold_bytes x1 (y1 + h) w ((w + 7) / 8) h px _ _ ih

theorem flush_write_frame_get (fb : List Nat) (x1 y1 w : Nat) (px : List Nat) (X Y : Nat)
    (hX : X < SCREEN_WIDTH) (hY : Y < SCREEN_HEIGHT) (hw : x1 + w ≤ SCREEN_WIDTH) :
    ∀ h : Nat, y1 + h ≤ SCREEN_HEIGHT → fb.length = FRAME_BYTES →
      get_full_frame_pixel (flush_write_frame fb x1 y1 w h px) X Y
        = if x1 ≤ X ∧ X < x1 + w ∧ y1 ≤ Y ∧ Y < y1 + h
          then (lvgl_pixel px ((w + 7) / 8) (Y - y1) (X - x1) == 0)
          else get_full_frame_pixel fb X Y := by
  intro h
  induction h with
  | zero =>
    intro _ _
    rw [show flush_write_frame fb x1 y1 w 0 px = fb by simp [flush_write_frame],
      if_neg (by omega)]
  | succ h ih =>
    intro hyh hlen
    have hstep : flush_write_frame fb x1 y1 w (h + 1) px
        = (List.range (((w + 7) / 8) * 8)).foldl
            (fun b2 x =>
              if x < w then
                set_full_frame_pixel b2 (x1 + x) (y1 + h)
                  (lvgl_pixel px ((w + 7) / 8) h x == 0)
              else b2)
            (flush_write_frame fb x1 y1 w h px) := by
      show (List.range (h + 1)).foldl _ fb = _
      rw [List.range_succ, List.foldl_append, List.foldl_cons, List.foldl_nil]
      rfl
    have hmin : min (((w + 7) / 8) * 8) w = w := by omega
    rw [hstep,
      row_fold_get x1 (y1 + h) w ((w + 7) / 8) h px X Y hX hY (by omega) hw _ _
        (by rw [flush_write_frame_length]; exact hlen),
      hmin, ih (by omega) hlen]
    by_cases hhit : Y = y1 + h ∧ x1 ≤ X ∧ X < x1 + w
    · obtain ⟨hY1, hX1, hX2⟩ := hhit
      rw [if_pos (by omega : Y = y1 + h ∧ x1 ≤ X ∧ X < x1 + w),
        if_pos (by omega : x1 ≤ X ∧ X < x1 + w ∧ y1 ≤ Y ∧ Y < y1 + (h + 1)),
        hY1, Nat.add_sub_cancel_left]
    · rw [if_neg hhit]
      exact if_congr (by omega) rfl rfl

/-! ### Row coverage bitmap lemmas -/

theorem mark_fold_length :
    ∀ (n s : Nat) (b : List Nat),
      ((List.range' s n).foldl
        (fun b2 row => b2.set (row / 8) ((b2.getD (row / 8) 0) ||| (1 <<< (row % 8)))) b).length
        = b.length := by
  intro n
  induction n with
  | zero => intro s b; simp
  | succ n ih =>
    intro s b
    rw [range'_concat, List.foldl_append, List.foldl_cons, List.foldl_nil,
      List.length_set, ih]

theorem mark_fold_bytes :
    ∀ (n s : Nat) (b : List Nat), (∀ c ∈ b, c < 256) →
      ∀ c ∈ ((List.range' s n).foldl
        (fun b2 row => b2.set (row / 8) ((b2.getD (row / 8) 0) ||| (1 <<< (row % 8)))) b),
        c < 256 := by
  intro n
  induction n with
  | zero => intro s b hb; simpa using hb
  | succ n ih =>
    intro s b hb c hc
    rw [range'_concat, List.foldl_append, List.foldl_cons, List.foldl_nil] at hc
    rcases List.mem_or_eq_of_mem_set hc with h | h
    · exact ih s b hb c h
    · subst h
      have hsh : (1 : Nat) <<< ((s + n) % 8) < 256 := by
        rw [Nat.one_shiftLeft]
        calc 2 ^ ((s + n) % 8) ≤ 2 ^ 7 :=
              Nat.pow_le_pow_right (by norm_num) (by omega)
          _ < 256 := by norm_num
      exact or_lt_256 (getD_lt_256 (ih s b hb) _) hsh

theorem mark_fold_covered :
    ∀ (n s : Nat), (s + n ≤ 200 ∨ n = 0) → ∀ (b : List Nat), b.length = ROW_BITMAP_BYTES →
      ∀ r, rowCovered ((List.range' s n).foldl
          (fun b2 row => b2.set (row / 8) ((b2.getD (row / 8) 0) ||| (1 <<< (row % 8)))) b) r
        = (rowCovered b r || decide (s ≤ r ∧ r < s + n)) := by
  intro n
  induction n with
  | zero =>
    intro s _ b _ r
    simp
  | succ n ih =>
    intro s hsn b hlen r
    rw [range'_concat, List.foldl_append, List.foldl_cons, List.foldl_nil]
    have hlenT : ((List.range' s n).foldl
        (fun b2 row => b2.set (row / 8) ((b2.getD (row / 8) 0) ||| (1 <<< (row % 8)))) b).length
        = ROW_BITMAP_BYTES := by rw [mark_fold_length, hlen]
    have hrow : s + n < 200 := by omega
    have hidx : (s + n) / 8 < ROW_BITMAP_BYTES := by
      show (s + n) / 8 < 25
      omega
    unfold rowCovered
    rw [Nat.one_shiftLeft]
    by_cases hre : r = s + n
    · subst hre
      rw [getD_set_self _ _ _ _ (by rw [hlenT]; exact hidx), testBit_or_pow_self]
      simp
    · by_cases hbe : r / 8 = (s + n) / 8
      · have hbit : r % 8 ≠ (s + n) % 8 := by omega
        rw [hbe, getD_set_self _ _ _ _ (by rw [hlenT]; exact hidx),
          testBit_or_pow_ne _ _ _ hbit, ← hbe]
        have := ih s (by omega) b hlen r
        unfold rowCovered at this
        rw [this]
        congr 1
        rw [decide_eq_decide]
        omega
      · rw [getD_set_ne _ _ _ _ _ (fun h => hbe h.symm)]
        have := ih s (by omega) b hlen r
        unfold rowCovered at this
        rw [this]
        congr 1
        rw [decide_eq_decide]
        omega

theorem mark_fold_getD_high :
    ∀ (n s : Nat), (s + n ≤ 200 ∨ n = 0) → ∀ (b : List Nat) (i : Nat), ROW_BITMAP_BYTES ≤ i →
      ((List.range' s n).foldl
        (fun b2 row => b2.set (row / 8) ((b2.getD (row / 8) 0) ||| (1 <<< (row % 8)))) b).getD i 0
        = b.getD i 0 := by
  intro n
  induction n with
  | zero => intro s _ b i _; simp
  | succ n ih =>
    intro s hsn b i hi
    rw [range'_concat, List.foldl_append, List.foldl_cons, List.foldl_nil]
    have hrow : s + n < 200 := by omega
    have hidx : (s + n) / 8 ≠ i := by
      have : ROW_BITMAP_BYTES = 25 := rfl
      omega
    rw [getD_set_ne _ _ _ _ _ hidx]
    exact ih s (by omega) b i hi

theorem mark_rows_covered_length (bm : List Nat) (y1 y2 : Nat) :
    (mark_rows_covered bm y1 y2).length = bm.length := by
  unfold mark_rows_covered
  exact mark_fold_length _ _ _

theorem mark_rows_covered_bytes (bm : List Nat) (hb : ∀ c ∈ bm, c < 256) (y1 y2 : Nat) :
    ∀ c ∈ mark_rows_covered bm y1 y2, c < 256 := by
  unfold mark_rows_covered
  exact mark_fold_bytes _ _ _ hb

/-- The bit view of `mark_rows_covered`: row `r` ends covered iff it was
covered before or lies in the clamped span `[y1, min y2 (H-1)]`. -/
theorem rowCovered_mark (bm : List Nat) (hlen : bm.length = ROW_BITMAP_BYTES) (y1 y2 r : Nat) :
    rowCovered (mark_rows_covered bm y1 y2) r
      = (rowCovered bm r || decide (y1 ≤ r ∧ r ≤ y2 ∧ r < SCREEN_HEIGHT)) := by
  unfold mark_rows_covered
  have hH : SCREEN_HEIGHT = 200 := rfl
  rw [mark_fold_covered (min (y2 + 1) SCREEN_HEIGHT - y1) y1
    (show y1 + (min (y2 + 1) 200 - y1) ≤ 200 ∨ min (y2 + 1) 200 - y1 = 0 by omega) bm hlen r]
  congr 1
  rw [decide_eq_decide, hH]
  omega

theorem mark_rows_covered_getD_high (bm : List Nat) (y1 y2 i : Nat)
    (hi : ROW_BITMAP_BYTES ≤ i) :
    (mark_rows_covered bm y1 y2).getD i 0 = bm.getD i 0 := by
  unfold mark_rows_covered
  exact mark_fold_getD_high _ _
    (show y1 + (min (y2 + 1) 200 - y1) ≤ 200 ∨ min (y2 + 1) 200 - y1 = 0 by omega) bm i hi

theorem all_rows_covered_eq_all (bm : List Nat) :
    all_rows_covered bm = (List.range 25).all (fun i => bm.getD i 0 == 255) := by
  simp only [all_rows_covered]
  rw [show SCREEN_HEIGHT / 8 = 25 from rfl, show SCREEN_HEIGHT % 8 = 0 from rfl]
  cases h : (List.range 25).all (fun i => bm.getD i 0 == 255) <;> simp

/-- For a well-formed bitmap, the byte scan of `all_rows_covered` is
exactly total row coverage. -/
theorem all_rows_covered_iff (bm : List Nat)
    (hb : ∀ c ∈ bm, c < 256) :
    all_rows_covered bm = true ↔ ∀ r, r < SCREEN_HEIGHT → rowCovered bm r = true := by
  rw [all_rows_covered_eq_all, List.all_eq_true]
  constructor
  · intro hall r hr
    have hr' : r < 200 := hr
    have hbyte : bm.getD (r / 8) 0 = 255 := by
      have := hall (r / 8) (List.mem_range.mpr (by omega))
      simpa using this
    unfold rowCovered
    rw [hbyte, show (255 : Nat) = 2 ^ 8 - 1 by norm_num, Nat.testBit_two_pow_sub_one]
    simp
    omega
  · intro hcov i hi
    have hi' : i < 25 := List.mem_range.mp hi
    have hbyte : bm.getD i 0 < 256 := getD_lt_256 hb i
    have heq : bm.getD i 0 = 255 := by
      apply Nat.eq_of_testBit_eq
      intro j
      by_cases hj : j < 8
      · have hcov' := hcov (8 * i + j) (show 8 * i + j < 200 by omega)
        unfold rowCovered at hcov'
        rw [show (8 * i + j) / 8 = i by omega, show (8 * i + j) % 8 = j by omega] at hcov'
        rw [hcov', show (255 : Nat) = 2 ^ 8 - 1 by norm_num, Nat.testBit_two_pow_sub_one]
        simp [hj]
      · have h8j : (256 : Nat) ≤ 2 ^ j := by
          calc (256 : Nat) = 2 ^ 8 := by norm_num
            _ ≤ 2 ^ j := Nat.pow_le_pow_right (by norm_num) (by omega)
        rw [Nat.testBit_eq_false_of_lt (lt_of_lt_of_le hbyte h8j),
          Nat.testBit_eq_false_of_lt
            (lt_of_lt_of_le (by norm_num : (255 : Nat) < 256) h8j)]
    simpa using heq

/-! ### Branch equations for the two entry points -/

theorem my_disp_flush_eq_false (s : EinkState) (x1 y1 x2 y2 : Nat) (px : List Nat) :
    my_disp_flush s x1 y1 x2 y2 px false
      = if s.full_refresh_pending then
          (if all_rows_covered (mark_rows_covered s.full_refresh_row_bitmap y1 y2) then
            { state :=
                { partial_update_count := 0
                  full_frame_buffer := s.full_frame_buffer
                  full_refresh_pending := false
                  full_refresh_row_bitmap := List.replicate ROW_BITMAP_BYTES 0 }
              epd_buffer := none
              hw_pixels := []
              did_full_refresh := true
              flush_ready_calls := 1 }
          else
            { state :=
                { partial_update_count := (s.partial_update_count + 1) % 256
                  full_frame_buffer := s.full_frame_buffer
                  full_refresh_pending := s.full_refresh_pending
                  full_refresh_row_bitmap :=
                    mark_rows_covered s.full_refresh_row_bitmap y1 y2 }
              epd_buffer := none
              hw_pixels := []
              did_full_refresh := false
              flush_ready_calls := 1 })
        else
          { state :=
              { partial_update_count := (s.partial_update_count + 1) % 256
                full_frame_buffer := s.full_frame_buffer
                full_refresh_pending := s.full_refresh_pending
                full_refresh_row_bitmap := s.full_refresh_row_bitmap }
            epd_buffer := none
            hw_pixels := []
            did_full_refresh := false
            flush_ready_calls := 1 } := rfl

theorem my_disp_flush_eq_true (s : EinkState) (x1 y1 x2 y2 : Nat) (px : List Nat) :
    my_disp_flush s x1 y1 x2 y2 px true
      = (let w := x2 - x1 + 1
         let h := y2 - y1 + 1
         let fb2 := flush_write_frame s.full_frame_buffer x1 y1 w h (px.drop 8)
         if s.full_refresh_pending then
           (if all_rows_covered (mark_rows_covered s.full_refresh_row_bitmap y1 y2) then
             { state :=
                 { partial_update_count := 0
                   full_frame_buffer := fb2
                   full_refresh_pending := false
                   full_refresh_row_bitmap := List.replicate ROW_BITMAP_BYTES 0 }
               epd_buffer := some (convert_buffer w h (px.drop 8))
               hw_pixels := hw_stream x1 y1 w h (px.drop 8)
               did_full_refresh := true
               flush_ready_calls := 1 }
           else
             { state :=
                 { partial_update_count := (s.partial_update_count + 1) % 256
                   full_frame_buffer := fb2
                   full_refresh_pending := s.full_refresh_pending
                   full_refresh_row_bitmap :=
                     mark_rows_covered s.full_refresh_row_bitmap y1 y2 }
               epd_buffer := some (convert_buffer w h (px.drop 8))
               hw_pixels := hw_stream x1 y1 w h (px.drop 8)
               did_full_refresh := false
               flush_ready_calls := 1 })
         else
           { state :=
               { partial_update_count := (s.partial_update_count + 1) % 256
                 full_frame_buffer := fb2
                 full_refresh_pending := s.full_refresh_pending
                 full_refresh_row_bitmap := s.full_refresh_row_bitmap }
             epd_buffer := some (convert_buffer w h (px.drop 8))
             hw_pixels := hw_stream x1 y1 w h (px.drop 8)
             did_full_refresh := false
             flush_ready_calls := 1 }) := rfl

theorem eink_force_full_refresh_eq (s : EinkState) :
    eink_force_full_refresh s
      = if s.full_refresh_pending then { state := s, invalidate_calls := 0 }
        else if MAX_PARTIAL_UPDATES ≤ s.partial_update_count then
          { state :=
              { partial_update_count := s.partial_update_count
                full_frame_buffer := s.full_frame_buffer
                full_refresh_pending := true
                full_refresh_row_bitmap := List.replicate ROW_BITMAP_BYTES 0 }
            invalidate_calls := 1 }
        else { state := s, invalidate_calls := 0 } := by
  by_cases hp : s.full_refresh_pending
  · simp [eink_force_full_refresh, schedule_full_refresh_request, hp]
  · by_cases ht : MAX_PARTIAL_UPDATES ≤ s.partial_update_count
    · simp [eink_force_full_refresh, schedule_full_refresh_request, hp, ht]
    · simp [eink_force_full_refresh, schedule_full_refresh_request, hp, ht]

/-! ### Well-formedness is an invariant of execution -/

theorem replicate_bytes (n v : Nat) (hv : v < 256) : ∀ c ∈ List.replicate n v, c < 256 := by
  intro c hc
  have := (List.mem_replicate.mp hc).2
  omega

theorem wf_init : WF initState := by
  refine ⟨by simp [initState], ?_, by simp [initState], ?_, by norm_num [initState]⟩
  · intro b hb
    have := (List.mem_replicate.mp hb).2
    omega
  · intro b hb
    have := (List.mem_replicate.mp hb).2
    omega

theorem wf_flush (s : EinkState) (hs : WF s) (x1 y1 x2 y2 : Nat) (px : List Nat) (ok : Bool) :
    WF (my_disp_flush s x1 y1 x2 y2 px ok).state := by
  obtain ⟨hfl, hfb, hbl, hbb, hc⟩ := hs
  have hmarkl : (mark_rows_covered s.full_refresh_row_bitmap y1 y2).length
      = ROW_BITMAP_BYTES := by rw [mark_rows_covered_length, hbl]
  have hmarkb := mark_rows_covered_bytes s.full_refresh_row_bitmap hbb y1 y2
  have hfbl2 : (flush_write_frame s.full_frame_buffer x1 y1 (x2 - x1 + 1) (y2 - y1 + 1)
      (px.drop 8)).length = FRAME_BYTES := by rw [flush_write_frame_length]; exact hfl
  have hfbb2 := flush_write_frame_bytes s.full_frame_buffer hfb x1 y1 (x2 - x1 + 1)
    (px.drop 8) (y2 - y1 + 1)
  have hrepl : (List.replicate ROW_BITMAP_BYTES (0 : Nat)).length = ROW_BITMAP_BYTES := by simp
  have hrepb : ∀ c ∈ List.replicate ROW_BITMAP_BYTES (0 : Nat), c < 256 :=
    replicate_bytes _ _ (by norm_num)
  have hcnt : (s.partial_update_count + 1) % 256 < 256 := Nat.mod_lt _ (by norm_num)
  cases ok
  · rw [my_disp_flush_eq_false]
    by_cases hp : s.full_refresh_pending = true
    · rw [if_pos hp]
      by_cases hcov :
          all_rows_covered (mark_rows_covered s.full_refresh_row_bitmap y1 y2) = true
      · rw [if_pos hcov]
        exact ⟨hfl, hfb, hrepl, hrepb, by norm_num⟩
      · rw [if_neg hcov]
        exact ⟨hfl, hfb, hmarkl, hmarkb, hcnt⟩
    · rw [if_neg hp]
      exact ⟨hfl, hfb, hbl, hbb, hcnt⟩
  · rw [my_disp_flush_eq_true]
    by_cases hp : s.full_refresh_pending = true
    · by_cases hcov :
          all_rows_covered (mark_rows_covered s.full_refresh_row_bitmap y1 y2) = true
      · simp only [if_pos hp, if_pos hcov]
        exact ⟨hfbl2, hfbb2, hrepl, hrepb, by norm_num⟩
      · simp only [if_pos hp, if_neg hcov]
        exact ⟨hfbl2, hfbb2, hmarkl, hmarkb, hcnt⟩
    · simp only [if_neg hp]
      exact ⟨hfbl2, hfbb2, hbl, hbb, hcnt⟩

theorem wf_check (s : EinkState) (hs : WF s) : WF (eink_force_full_refresh s).state := by
  obtain ⟨hfl, hfb, hbl, hbb, hc⟩ := hs
  rw [eink_force_full_refresh_eq]
  by_cases hp : s.full_refresh_pending = true
  · rw [if_pos hp]
    exact ⟨hfl, hfb, hbl, hbb, hc⟩
  · rw [if_neg hp]
    by_cases ht : MAX_PARTIAL_UPDATES ≤ s.partial_update_count
    · rw [if_pos ht]
      exact ⟨hfl, hfb, by simp, replicate_bytes _ _ (by norm_num), hc⟩
    · rw [if_neg ht]
      exact ⟨hfl, hfb, hbl, hbb, hc⟩

theorem wf_step (s : EinkState) (hs : WF s) (op : Op) : WF (step s op) := by
  cases op with
  | flush x1 y1 x2 y2 px ok => exact wf_flush s hs x1 y1 x2 y2 px ok
  | check => exact wf_check s hs

theorem wf_foldl (ops : List Op) : ∀ s, WF s → WF (ops.foldl step s) := by
  induction ops with
  | nil => intro s hs; exact hs
  | cons op rest ih =>
    intro s hs
    rw [List.foldl_cons]
    exact ih _ (wf_step s hs op)

theorem wf_run (ops : List Op) : WF (run ops) := wf_foldl ops initState wf_init

theorem wf_of_reachable (s : EinkState) (h : Reachable s) : WF s := by
  obtain ⟨ops, _, hrun⟩ := h
  rw [← hrun]
  exact wf_run ops

/-! ### Per-step and per-sequence framebuffer content -/

theorem check_fb (s : EinkState) :
    (eink_force_full_refresh s).state.full_frame_buffer = s.full_frame_buffer := by
  rw [eink_force_full_refresh_eq]
  split
  · rfl
  · split <;> rfl

theorem step_fb_bit (s : EinkState) (hs : WF s) (op : Op) (hop : inBounds op = true)
    (X Y : Nat) (hX : X < SCREEN_WIDTH) (hY : Y < SCREEN_HEIGHT) :
    get_full_frame_pixel (step s op).full_frame_buffer X Y
      = (colorAt op X Y).getD (get_full_frame_pixel s.full_frame_buffer X Y) := by
  obtain ⟨hfl, hfb, hbl, hbb, hc⟩ := hs
  cases op with
  | check =>
    show get_full_frame_pixel (eink_force_full_refresh s).state.full_frame_buffer X Y = _
    rw [check_fb]
    rfl
  | flush x1 y1 x2 y2 px ok =>
    have hb' := hop
    simp only [inBounds, Bool.and_eq_true, decide_eq_true_eq] at hb'
    obtain ⟨⟨⟨h12, h2W⟩, h34⟩, h4H⟩ := hb'
    have h2W' : x2 < 200 := h2W
    have h4H' : y2 < 200 := h4H
    show get_full_frame_pixel (my_disp_flush s x1 y1 x2 y2 px ok).state.full_frame_buffer X Y = _
    have hfbeq : (my_disp_flush s x1 y1 x2 y2 px ok).state.full_frame_buffer
        = if ok = true then
            flush_write_frame s.full_frame_buffer x1 y1 (x2 - x1 + 1) (y2 - y1 + 1) (px.drop 8)
          else s.full_frame_buffer := by
      cases ok
      · rw [my_disp_flush_eq_false]
        split
        · split <;> rfl
        · rfl
      · rw [my_disp_flush_eq_true]
        show (if s.full_refresh_pending = true then _ else _ : FlushOut).state.full_frame_buffer = _
        split
        · split <;> rfl
        · rfl
    rw [hfbeq]
    cases ok with
    | false =>
      simp [colorAt]
    | true =>
      rw [if_pos rfl,
        flush_write_frame_get s.full_frame_buffer x1 y1 (x2 - x1 + 1) (px.drop 8) X Y hX hY
          (show x1 + (x2 - x1 + 1) ≤ 200 by omega) (y2 - y1 + 1)
          (show y1 + (y2 - y1 + 1) ≤ 200 by omega) hfl]
      by_cases hcov : x1 ≤ X ∧ X ≤ x2 ∧ y1 ≤ Y ∧ Y ≤ y2
      · rw [if_pos (by omega : x1 ≤ X ∧ X < x1 + (x2 - x1 + 1) ∧ y1 ≤ Y ∧ Y < y1 + (y2 - y1 + 1))]
        have : colorAt (Op.flush x1 y1 x2 y2 px true) X Y
            = some (lvgl_pixel (px.drop 8) ((x2 - x1 + 1 + 7) / 8) (Y - y1) (X - x1) == 0) := by
          simp only [colorAt]
          rw [if_pos ⟨trivial, hcov.1, hcov.2.1, hcov.2.2.1, hcov.2.2.2⟩]
        rw [this]
        rfl
      · rw [if_neg (by omega : ¬(x1 ≤ X ∧ X < x1 + (x2 - x1 + 1) ∧ y1 ≤ Y ∧ Y < y1 + (y2 - y1 + 1)))]
        have : colorAt (Op.flush x1 y1 x2 y2 px true) X Y = none := by
          simp only [colorAt]
          rw [if_neg (by intro hcontra; exact hcov hcontra.2)]
        rw [this]
        rfl

theorem lastWrite_shift (X Y : Nat) :
    ∀ (ops : List Op) (acc : Option Bool),
      ops.foldl (fun a op => match colorAt op X Y with | some c => some c | none => a) acc
        = match lastWrite ops X Y with | some c => some c | none => acc := by
  intro ops
  induction ops with
  | nil => intro acc; rfl
  | cons op rest ih =>
    intro acc
    rw [List.foldl_cons, ih,
      show lastWrite (op :: rest) X Y
        = rest.foldl (fun a op => match colorAt op X Y with | some c => some c | none => a)
            (match colorAt op X Y with | some c => some c | none => none) from by
          unfold lastWrite
          rw [List.foldl_cons],
      ih]
    cases h2 : lastWrite rest X Y <;> cases h1 : colorAt op X Y <;> simp [h1]

theorem fb_fold (X Y : Nat) (hX : X < SCREEN_WIDTH) (hY : Y < SCREEN_HEIGHT) :
    ∀ (ops : List Op) (s : EinkState), WF s → (∀ op ∈ ops, inBounds op = true) →
      get_full_frame_pixel (ops.foldl step s).full_frame_buffer X Y
        = (lastWrite ops X Y).getD (get_full_frame_pixel s.full_frame_buffer X Y) := by
  intro ops
  induction ops with
  | nil => intro s _ _; rfl
  | cons op rest ih =>
    intro s hs hops
    rw [List.foldl_cons,
      ih (step s op) (wf_step s hs op) (fun o ho => hops o (by simp [ho])),
      step_fb_bit s hs op (hops op (by simp)) X Y hX hY,
      show lastWrite (op :: rest) X Y
        = rest.foldl (fun a op => match colorAt op X Y with | some c => some c | none => a)
            (match colorAt op X Y with | some c => some c | none => none) from by
          unfold lastWrite
          rw [List.foldl_cons],
      lastWrite_shift X Y rest]
    cases h2 : lastWrite rest X Y <;> cases h1 : colorAt op X Y <;> simp [h1]

/-! ### Pixel format conversion lemmas -/

theorem convert_byte_testBit (px : List Nat) (w y byte_x bit : Nat) (hbit : bit < 8) :
    (convert_byte px w y byte_x).testBit (7 - bit)
      = (decide (byte_x * 8 + bit < w)
          && (lvgl_pixel px ((w + 7) / 8) y (byte_x * 8 + bit) == 0)) := by
  unfold convert_byte
  have hfun : (fun (epd_byte bit : Nat) =>
        let x := byte_x * 8 + bit
        if x < w then
          if lvgl_pixel px ((w + 7) / 8) y x == 0 then epd_byte ||| (128 >>> bit)
          else epd_byte
        else epd_byte)
      = (fun (epd_byte b : Nat) =>
          if (decide (byte_x * 8 + b < w)
              && (lvgl_pixel px ((w + 7) / 8) y (byte_x * 8 + b) == 0)) = true
          then epd_byte ||| (128 >>> b) else epd_byte) := by
    funext a b
    by_cases h1 : byte_x * 8 + b < w
    · by_cases h2 : (lvgl_pixel px ((w + 7) / 8) y (byte_x * 8 + b) == 0) = true <;>
        simp [h1, h2]
    · simp [h1]
  rw [hfun,
    foldl_setbits_testBit
      (fun b =>
        decide (byte_x * 8 + b < w)
          && (lvgl_pixel px ((w + 7) / 8) y (byte_x * 8 + b) == 0))
      8 (le_refl 8) 0 (7 - bit) (by omega)]
  have h77 : 7 - (7 - bit) = bit := by omega
  rw [h77]
  simp [Nat.zero_testBit, hbit]

theorem convert_buffer_getD (w h : Nat) (px : List Nat) (y j : Nat) (hy : y < h)
    (hj : j < (w + 7) / 8) :
    (convert_buffer w h px).getD (y * ((w + 7) / 8) + j) 0 = convert_byte px w y j := by
  unfold convert_buffer
  exact getD_flatMap_map 0 ((w + 7) / 8) h (fun y' j' => convert_byte px w y' j') y j hy hj

theorem flatMap_congr_mem {α β} (l : List α) (f g : α → List β)
    (h : ∀ a ∈ l, f a = g a) : l.flatMap f = l.flatMap g := by
  induction l with
  | nil => rfl
  | cons a rest ih =>
    rw [List.flatMap_cons, List.flatMap_cons, h a (by simp),
      ih (fun a ha => h a (by simp [ha]))]

theorem convert_byte_ext (px px' : List Nat) (w h y byte_x : Nat) (hy : y < h)
    (hagree : ∀ i, i < h * ((w + 7) / 8) → px.getD i 0 = px'.getD i 0) :
    convert_byte px w y byte_x = convert_byte px' w y byte_x := by
  unfold convert_byte
  have hfun : (fun (epd_byte bit : Nat) =>
        let x := byte_x * 8 + bit
        if x < w then
          if lvgl_pixel px ((w + 7) / 8) y x == 0 then epd_byte ||| (128 >>> bit)
          else epd_byte
        else epd_byte)
      = (fun (epd_byte bit : Nat) =>
          let x := byte_x * 8 + bit
          if x < w then
            if lvgl_pixel px' ((w + 7) / 8) y x == 0 then epd_byte ||| (128 >>> bit)
            else epd_byte
          else epd_byte) := by
    funext a b
    by_cases hxw : byte_x * 8 + b < w
    · have hstr : (byte_x * 8 + b) / 8 < (w + 7) / 8 := by omega
      have hidx : y * ((w + 7) / 8) + (byte_x * 8 + b) / 8 < h * ((w + 7) / 8) := by
        calc y * ((w + 7) / 8) + (byte_x * 8 + b) / 8
            < y * ((w + 7) / 8) + (w + 7) / 8 := by omega
          _ = (y + 1) * ((w + 7) / 8) := by rw [Nat.succ_mul]
          _ ≤ h * ((w + 7) / 8) := Nat.mul_le_mul_right _ hy
      have hpix : lvgl_pixel px ((w + 7) / 8) y (byte_x * 8 + b)
          = lvgl_pixel px' ((w + 7) / 8) y (byte_x * 8 + b) := by
        unfold lvgl_pixel
        rw [hagree _ hidx]
      simp [hxw, hpix]
    · simp [hxw]
  rw [hfun]

theorem convert_buffer_ext (w h : Nat) (px px' : List Nat)
    (hagree : ∀ i, i < h * ((w + 7) / 8) → px.getD i 0 = px'.getD i 0) :
    convert_buffer w h px = convert_buffer w h px' := by
  unfold convert_buffer
  apply flatMap_congr_mem
  intro y hy
  have hy' : y < h := List.mem_range.mp hy
  congr 1
  funext j
  exact convert_byte_ext px px' w h y j hy' hagree

theorem full_refresh_replay_getD (fb : List Nat) (x y : Nat)
    (hx : x < SCREEN_WIDTH) (hy : y < SCREEN_HEIGHT) :
    (full_refresh_replay fb).getD (y * SCREEN_WIDTH + x) false
      = get_full_frame_pixel fb x y := by
  unfold full_refresh_replay
  exact getD_flatMap_map false SCREEN_WIDTH SCREEN_HEIGHT
    (fun y' x' => get_full_frame_pixel fb x' y') y x hy hx

/-! ### Flush projection lemmas -/

theorem flush_did_full (s : EinkState) (hp : s.full_refresh_pending = true)
    (x1 y1 x2 y2 : Nat) (px : List Nat) (ok : Bool) :
    (my_disp_flush s x1 y1 x2 y2 px ok).did_full_refresh
      = all_rows_covered (mark_rows_covered s.full_refresh_row_bitmap y1 y2) := by
  cases ok
  · rw [my_disp_flush_eq_false, if_pos hp]
    cases hcov : all_rows_covered (mark_rows_covered s.full_refresh_row_bitmap y1 y2) <;> rfl
  · rw [my_disp_flush_eq_true]
    simp only [if_pos hp]
    cases hcov : all_rows_covered (mark_rows_covered s.full_refresh_row_bitmap y1 y2) <;> rfl

theorem flush_did_full_idle (s : EinkState) (hp : s.full_refresh_pending = false)
    (x1 y1 x2 y2 : Nat) (px : List Nat) (ok : Bool) :
    (my_disp_flush s x1 y1 x2 y2 px ok).did_full_refresh = false := by
  cases ok
  · rw [my_disp_flush_eq_false, if_neg (by simp [hp])]
  · rw [my_disp_flush_eq_true]
    simp only [if_neg (show ¬s.full_refresh_pending = true by simp [hp])]

/-! ### Claim theorems -/

/-- Claim C1: in every reachable state with the full refresh pending, a
flush executes the full refresh if and only if, after marking the flush's
row span, every row bit 0..SCREEN_HEIGHT-1 of the coverage bitmap is set;
one unset row bit blocks the refresh. -/
theorem c1_full_refresh_iff_total_coverage (s : EinkState) (hr : Reachable s)
    (hp : s.full_refresh_pending = true) (x1 y1 x2 y2 : Nat) (px : List Nat) (ok : Bool) :
    (my_disp_flush s x1 y1 x2 y2 px ok).did_full_refresh = true
      ↔ ∀ r, r < SCREEN_HEIGHT →
          rowCovered (mark_rows_covered s.full_refresh_row_bitmap y1 y2) r = true := by
  obtain ⟨-, -, hbl, hbb, -⟩ := wf_of_reachable s hr
  rw [flush_did_full s hp x1 y1 x2 y2 px ok,
    all_rows_covered_iff _ (mark_rows_covered_bytes _ hbb y1 y2)]

/-- Witness for C1 at a concrete reachable armed state and a full-screen
flush. -/
theorem c1_witness :
    (my_disp_flush (run opsArmed) 0 0 199 199 [] false).did_full_refresh = true
      ↔ ∀ r, r < SCREEN_HEIGHT →
          rowCovered (mark_rows_covered (run opsArmed).full_refresh_row_bitmap 0 199) r
            = true :=
  c1_full_refresh_iff_total_coverage (run opsArmed)
    ⟨opsArmed, by decide, rfl⟩ (by decide) 0 0 199 199 [] false

theorem getD_replicate_zero (n i : Nat) : (List.replicate n (0 : Nat)).getD i 0 = 0 := by
  rcases Nat.lt_or_ge i n with h | h
  · rw [List.getD_eq_getElem?_getD, List.getElem?_eq_getElem (by simpa using h)]
    simp [List.getElem_replicate]
  · rw [List.getD_eq_getElem?_getD, List.getElem?_eq_none (by simpa using h)]
    rfl

/-- Claim C2: the conversion loop inverts polarity (destination bit set iff
source pixel 0 = black, both MSB-first at stride `ceil(w/8)`), leaves the
trailing bits of each row's last byte clear, and reads no source byte
beyond the `h * ceil(w/8)` bytes of the region. -/
theorem c2_convert_polarity (w h : Nat) (px : List Nat) :
    (∀ y, y < h → ∀ x, x < w →
        ((convert_buffer w h px).getD (y * ((w + 7) / 8) + x / 8) 0).testBit (7 - x % 8)
          = (lvgl_pixel px ((w + 7) / 8) y x == 0))
    ∧ (∀ y, y < h → ∀ x, w ≤ x → x < 8 * ((w + 7) / 8) →
        ((convert_buffer w h px).getD (y * ((w + 7) / 8) + x / 8) 0).testBit (7 - x % 8)
          = false)
    ∧ (∀ px', (∀ i, i < h * ((w + 7) / 8) → px.getD i 0 = px'.getD i 0) →
        convert_buffer w h px = convert_buffer w h px') := by
  refine ⟨?_, ?_, convert_buffer_ext w h px⟩
  · intro y hy x hxw
    rw [convert_buffer_getD w h px y (x / 8) hy (by omega),
      convert_byte_testBit px w y (x / 8) (x % 8) (by omega),
      show x / 8 * 8 + x % 8 = x by omega]
    simp [hxw]
  · intro y hy x hwx hx8
    rw [convert_buffer_getD w h px y (x / 8) hy (by omega),
      convert_byte_testBit px w y (x / 8) (x % 8) (by omega),
      show x / 8 * 8 + x % 8 = x by omega]
    simp [show ¬x < w by omega]

/-- Witness for C2 on a 3x2 region. -/
theorem c2_witness :
    (((convert_buffer 3 2 [160, 0]).getD (0 * ((3 + 7) / 8) + 1 / 8) 0).testBit (7 - 1 % 8)
        = (lvgl_pixel [160, 0] ((3 + 7) / 8) 0 1 == 0))
    ∧ (((convert_buffer 3 2 [160, 0]).getD (0 * ((3 + 7) / 8) + 5 / 8) 0).testBit (7 - 5 % 8)
        = false)
    ∧ convert_buffer 3 2 [160, 0] = convert_buffer 3 2 [160, 0, 99] :=
  ⟨(c2_convert_polarity 3 2 [160, 0]).1 0 (by decide) 1 (by decide),
   (c2_convert_polarity 3 2 [160, 0]).2.1 0 (by decide) 5 (by decide) (by decide),
   (c2_convert_polarity 3 2 [160, 0]).2.2 [160, 0, 99] (by decide)⟩

/-- Claim C3: a successful in-bounds flush records every pixel's resolved
black/white state into the shadow framebuffer at absolute coordinates, and
across any in-bounds operation sequence every panel pixel holds the most
recently flushed colour (or its prior value if never covered). -/
theorem c3_shadow_framebuffer_fidelity :
    (∀ (s : EinkState), WF s → ∀ (x1 y1 x2 y2 : Nat) (px : List Nat),
        x1 ≤ x2 → x2 < SCREEN_WIDTH → y1 ≤ y2 → y2 < SCREEN_HEIGHT →
        ∀ dx dy, dx ≤ x2 - x1 → dy ≤ y2 - y1 →
          get_full_frame_pixel
              (my_disp_flush s x1 y1 x2 y2 px true).state.full_frame_buffer
              (x1 + dx) (y1 + dy)
            = (lvgl_pixel (px.drop 8) ((x2 - x1 + 1 + 7) / 8) dy dx == 0))
    ∧ (∀ (s : EinkState), WF s → ∀ (ops : List Op), (∀ op ∈ ops, inBounds op = true) →
        ∀ X Y, X < SCREEN_WIDTH → Y < SCREEN_HEIGHT →
          get_full_frame_pixel (ops.foldl step s).full_frame_buffer X Y
            = (lastWrite ops X Y).getD (get_full_frame_pixel s.full_frame_buffer X Y)) := by
  constructor
  · intro s hs x1 y1 x2 y2 px h12 h2W h34 h4H dx dy hdx hdy
    have h2W' : x2 < 200 := h2W
    have h4H' : y2 < 200 := h4H
    have hop : inBounds (Op.flush x1 y1 x2 y2 px true) = true := by
      simp only [inBounds, Bool.and_eq_true, decide_eq_true_eq]
      exact ⟨⟨⟨h12, h2W⟩, h34⟩, h4H⟩
    have hXb : x1 + dx < SCREEN_WIDTH := by show x1 + dx < 200; omega
    have hYb : y1 + dy < SCREEN_HEIGHT := by show y1 + dy < 200; omega
    have hbit := step_fb_bit s hs (Op.flush x1 y1 x2 y2 px true) hop (x1 + dx) (y1 + dy) hXb hYb
    rw [show step s (Op.flush x1 y1 x2 y2 px true)
        = (my_disp_flush s x1 y1 x2 y2 px true).state from rfl] at hbit
    rw [hbit,
      show colorAt (Op.flush x1 y1 x2 y2 px true) (x1 + dx) (y1 + dy)
          = some (lvgl_pixel (px.drop 8) ((x2 - x1 + 1 + 7) / 8)
              ((y1 + dy) - y1) ((x1 + dx) - x1) == 0) from by
        simp only [colorAt]
        rw [if_pos ⟨trivial, by omega, by omega, by omega, by omega⟩],
      Option.getD_some, Nat.add_sub_cancel_left, Nat.add_sub_cancel_left]
  · intro s hs ops hops X Y hX hY
    exact fb_fold X Y hX hY ops s hs hops

/-- Witness for C3: one successful 3x2 flush from the startup state, and a
singleton operation sequence. -/
theorem c3_witness :
    (get_full_frame_pixel
        (my_disp_flush initState 10 20 12 21 (List.replicate 8 0 ++ [160, 0]) true).state.full_frame_buffer
        (10 + 1) (20 + 0)
      = (lvgl_pixel ((List.replicate 8 0 ++ [160, 0]).drop 8) ((12 - 10 + 1 + 7) / 8) 0 1 == 0))
    ∧ (get_full_frame_pixel
          (([Op.flush 0 0 0 0 [] false] : List Op).foldl step initState).full_frame_buffer 0 0
        = (lastWrite [Op.flush 0 0 0 0 [] false] 0 0).getD
            (get_full_frame_pixel initState.full_frame_buffer 0 0)) :=
  ⟨(c3_shadow_framebuffer_fidelity).1 initState wf_init 10 20 12 21
      (List.replicate 8 0 ++ [160, 0]) (by decide) (by decide) (by decide) (by decide)
      1 0 (by decide) (by decide),
   (c3_shadow_framebuffer_fidelity).2 initState wf_init [Op.flush 0 0 0 0 [] false]
      (by decide) 0 0 (by decide) (by decide)⟩

/-- Claim C4: in a reachable Idle state at or above the threshold, the
check arms the full refresh (pending set, bitmap cleared, exactly one
invalidate-all); below the threshold it changes nothing and issues no
invalidate. -/
theorem c4_threshold_check (s : EinkState) (_hr : Reachable s)
    (hp : s.full_refresh_pending = false) :
    (MAX_PARTIAL_UPDATES ≤ s.partial_update_count →
        (eink_force_full_refresh s).state
            = { partial_update_count := s.partial_update_count
                full_frame_buffer := s.full_frame_buffer
                full_refresh_pending := true
                full_refresh_row_bitmap := List.replicate ROW_BITMAP_BYTES 0 }
          ∧ (∀ r, rowCovered (eink_force_full_refresh s).state.full_refresh_row_bitmap r
              = false)
          ∧ (eink_force_full_refresh s).invalidate_calls = 1)
    ∧ (s.partial_update_count < MAX_PARTIAL_UPDATES →
        (eink_force_full_refresh s).state = s
          ∧ (eink_force_full_refresh s).invalidate_calls = 0) := by
  constructor
  · intro ht
    rw [eink_force_full_refresh_eq, if_neg (by simp [hp]), if_pos ht]
    refine ⟨rfl, ?_, rfl⟩
    intro r
    show rowCovered (List.replicate ROW_BITMAP_BYTES 0) r = false
    unfold rowCovered
    rw [getD_replicate_zero, Nat.zero_testBit]
  · intro ht
    rw [eink_force_full_refresh_eq, if_neg (by simp [hp]), if_neg (by omega)]
    exact ⟨rfl, rfl⟩

/-- Witness for C4 at the threshold state (30 flushes) and at startup. -/
theorem c4_witness :
    ((eink_force_full_refresh (run opsToThreshold)).state
        = { partial_update_count := (run opsToThreshold).partial_update_count
            full_frame_buffer := (run opsToThreshold).full_frame_buffer
            full_refresh_pending := true
            full_refresh_row_bitmap := List.replicate ROW_BITMAP_BYTES 0 }
      ∧ (∀ r, rowCovered
            (eink_force_full_refresh (run opsToThreshold)).state.full_refresh_row_bitmap r
          = false)
      ∧ (eink_force_full_refresh (run opsToThreshold)).invalidate_calls = 1)
    ∧ ((eink_force_full_refresh initState).state = initState
        ∧ (eink_force_full_refresh initState).invalidate_calls = 0) :=
  ⟨(c4_threshold_check (run opsToThreshold) ⟨opsToThreshold, by decide, rfl⟩
      (by decide)).1 (by decide),
   (c4_threshold_check initState ⟨[], by simp, rfl⟩ rfl).2 (by decide)⟩

theorem flush_count_char (s : EinkState) (x1 y1 x2 y2 : Nat) (px : List Nat) (ok : Bool) :
    (my_disp_flush s x1 y1 x2 y2 px ok).state.partial_update_count
      = if (my_disp_flush s x1 y1 x2 y2 px ok).did_full_refresh = true then 0
        else (s.partial_update_count + 1) % 256 := by
  cases ok
  · rw [my_disp_flush_eq_false]
    by_cases hp : s.full_refresh_pending = true
    · rw [if_pos hp]
      cases hcov :
        all_rows_covered (mark_rows_covered s.full_refresh_row_bitmap y1 y2) <;> rfl
    · rw [if_neg hp]
      rfl
  · rw [my_disp_flush_eq_true]
    by_cases hp : s.full_refresh_pending = true
    · simp only [if_pos hp]
      cases hcov :
        all_rows_covered (mark_rows_covered s.full_refresh_row_bitmap y1 y2) <;> rfl
    · simp only [if_neg hp]
      rfl

theorem check_count (s : EinkState) :
    (eink_force_full_refresh s).state.partial_update_count = s.partial_update_count := by
  rw [eink_force_full_refresh_eq]
  by_cases hp : s.full_refresh_pending = true
  · rw [if_pos hp]
  · rw [if_neg hp]
    by_cases ht : MAX_PARTIAL_UPDATES ≤ s.partial_update_count
    · rw [if_pos ht]
    · rw [if_neg ht]

theorem flush_pending_idle (s : EinkState) (hp : s.full_refresh_pending = false)
    (x1 y1 x2 y2 : Nat) (px : List Nat) (ok : Bool) :
    (my_disp_flush s x1 y1 x2 y2 px ok).state.full_refresh_pending = false := by
  cases ok
  · rw [my_disp_flush_eq_false, if_neg (by simp [hp])]
    exact hp
  · rw [my_disp_flush_eq_true]
    simp only [if_neg (show ¬s.full_refresh_pending = true by simp [hp])]
    exact hp

/-- Counter and pending flag after `n` allocation-failing 1x1 flushes from
an idle state: the uint8_t counter advances by `n` modulo 256 and the
state stays idle. -/
theorem failflush_fold :
    ∀ (n : Nat) (s : EinkState), s.full_refresh_pending = false →
      s.partial_update_count < 256 →
      ((List.replicate n tinyFailFlush).foldl step s).partial_update_count
          = (s.partial_update_count + n) % 256
        ∧ ((List.replicate n tinyFailFlush).foldl step s).full_refresh_pending = false := by
  intro n
  induction n with
  | zero =>
    intro s hp hc
    exact ⟨by show s.partial_update_count = (s.partial_update_count + 0) % 256; omega, hp⟩
  | succ n ih =>
    intro s hp hc
    rw [List.replicate_succ, List.foldl_cons]
    have hstep_p : (step s tinyFailFlush).full_refresh_pending = false :=
      flush_pending_idle s hp 0 0 0 0 [] false
    have hstep_c : (step s tinyFailFlush).partial_update_count
        = (s.partial_update_count + 1) % 256 := by
      show (my_disp_flush s 0 0 0 0 [] false).state.partial_update_count = _
      rw [flush_count_char s 0 0 0 0 [] false, flush_did_full_idle s hp 0 0 0 0 [] false]
      rfl
    obtain ⟨h1, h2⟩ := ih (step s tinyFailFlush) hstep_p
      (by rw [hstep_c]; exact Nat.mod_lt _ (by norm_num))
    rw [h1, hstep_c]
    refine ⟨?_, h2⟩
    rw [Nat.mod_add_mod]
    congr 1
    omega

/-- Counterexample to C5 as stated: after 255 flushes the uint8_t counter
sits at 255, and the 256th flush wraps it to 0 although no full refresh
executed during that flush — the counter decreases to 0 without a full
refresh, and that flush did not increment it by 1. -/
theorem c5_counterexample :
    (run opsToWrap).partial_update_count = 255
      ∧ (my_disp_flush (run opsToWrap) 0 0 0 0 [] false).did_full_refresh = false
      ∧ (my_disp_flush (run opsToWrap) 0 0 0 0 [] false).state.partial_update_count = 0 := by
  have h := failflush_fold 255 initState rfl (by decide)
  have hcount : (run opsToWrap).partial_update_count = 255 := by
    have h1 := h.1
    rw [show (initState.partial_update_count + 255) % 256 = 255 from by decide] at h1
    exact h1
  have hpend : (run opsToWrap).full_refresh_pending = false := h.2
  have hdid := flush_did_full_idle (run opsToWrap) hpend 0 0 0 0 [] false
  refine ⟨hcount, hdid, ?_⟩
  rw [flush_count_char (run opsToWrap) 0 0 0 0 [] false, hdid, hcount]
  rfl

/-- Claim C5 (amended): every flush sets the counter to `(old + 1) % 256`
(the uint8_t increment) unless the full refresh executed during that
flush, in which case it ends at 0; the threshold check never changes it.
Hence the counter is non-decreasing except for a reset to exactly 0, which
happens only immediately after a full refresh or at the 8-bit wraparound
of the increment. -/
theorem c5_counter_step :
    (∀ (s : EinkState) (x1 y1 x2 y2 : Nat) (px : List Nat) (ok : Bool),
        (my_disp_flush s x1 y1 x2 y2 px ok).state.partial_update_count
          = if (my_disp_flush s x1 y1 x2 y2 px ok).did_full_refresh = true then 0
            else (s.partial_update_count + 1) % 256)
    ∧ (∀ s : EinkState,
        (eink_force_full_refresh s).state.partial_update_count
          = s.partial_update_count) :=
  ⟨fun s x1 y1 x2 y2 px ok => flush_count_char s x1 y1 x2 y2 px ok,
   fun s => check_count s⟩

/-- Claim C6: `perform_full_refresh` leaves the counter at 0, the pending
flag false, every row-coverage bit clear, the shadow framebuffer
byte-for-byte unchanged, and its hardware stream replays exactly that
framebuffer in row-major order. -/
theorem c6_full_refresh_resets (s : EinkState) :
    (perform_full_refresh s).1.partial_update_count = 0
      ∧ (perform_full_refresh s).1.full_refresh_pending = false
      ∧ (perform_full_refresh s).1.full_refresh_row_bitmap
          = List.replicate ROW_BITMAP_BYTES 0
      ∧ (∀ r, rowCovered (perform_full_refresh s).1.full_refresh_row_bitmap r = false)
      ∧ (perform_full_refresh s).1.full_frame_buffer = s.full_frame_buffer
      ∧ (perform_full_refresh s).2 = full_refresh_replay s.full_frame_buffer
      ∧ (∀ x y, x < SCREEN_WIDTH → y < SCREEN_HEIGHT →
          (perform_full_refresh s).2.getD (y * SCREEN_WIDTH + x) false
            = get_full_frame_pixel s.full_frame_buffer x y) := by
  refine ⟨rfl, rfl, rfl, ?_, rfl, rfl, ?_⟩
  · intro r
    show rowCovered (List.replicate ROW_BITMAP_BYTES 0) r = false
    unfold rowCovered
    rw [getD_replicate_zero, Nat.zero_testBit]
  · intro x y hx hy
    show (full_refresh_replay s.full_frame_buffer).getD _ false = _
    exact full_refresh_replay_getD s.full_frame_buffer x y hx hy

/-- Witness for C6 at the startup state and the origin pixel. -/
theorem c6_witness :
    (perform_full_refresh initState).1.partial_update_count = 0
      ∧ (perform_full_refresh initState).2.getD (0 * SCREEN_WIDTH + 0) false
          = get_full_frame_pixel initState.full_frame_buffer 0 0 :=
  ⟨(c6_full_refresh_resets initState).1,
   (c6_full_refresh_resets initState).2.2.2.2.2.2 0 0 (by decide) (by decide)⟩

theorem check_noop (t : EinkState) (hp : t.full_refresh_pending = true) :
    eink_force_full_refresh t = { state := t, invalidate_calls := 0 } := by
  rw [eink_force_full_refresh_eq, if_pos hp]

theorem check_below (t : EinkState) (hp : t.full_refresh_pending = false)
    (ht : t.partial_update_count < MAX_PARTIAL_UPDATES) :
    eink_force_full_refresh t = { state := t, invalidate_calls := 0 } := by
  rw [eink_force_full_refresh_eq, if_neg (by simp [hp]), if_neg (by omega)]

/-- Claim C7: the threshold check is a no-op while the full refresh is
pending (same state, no invalidate), and arming is idempotent: a second
check right after any check leaves the state unchanged and, when the state
is armed, issues no further invalidate. -/
theorem c7_arming_idempotent (s : EinkState) (_hr : Reachable s) :
    (s.full_refresh_pending = true →
        (eink_force_full_refresh s).state = s
          ∧ (eink_force_full_refresh s).invalidate_calls = 0)
    ∧ (eink_force_full_refresh ((eink_force_full_refresh s).state)).state
        = (eink_force_full_refresh s).state
    ∧ ((eink_force_full_refresh s).state.full_refresh_pending = true →
        (eink_force_full_refresh ((eink_force_full_refresh s).state)).invalidate_calls
          = 0) := by
  refine ⟨?_, ?_, ?_⟩
  · intro hp
    rw [check_noop s hp]
    exact ⟨rfl, rfl⟩
  · by_cases hp : s.full_refresh_pending = true
    · rw [check_noop s hp]
      show (eink_force_full_refresh s).state = s
      rw [check_noop s hp]
    · by_cases ht : MAX_PARTIAL_UPDATES ≤ s.partial_update_count
      · have harm : (eink_force_full_refresh s).state
            = { partial_update_count := s.partial_update_count
                full_frame_buffer := s.full_frame_buffer
                full_refresh_pending := true
                full_refresh_row_bitmap := List.replicate ROW_BITMAP_BYTES 0 } := by
          rw [eink_force_full_refresh_eq, if_neg (by simp [hp]), if_pos ht]
        rw [harm, check_noop _ rfl]
      · have hb : eink_force_full_refresh s = { state := s, invalidate_calls := 0 } :=
          check_below s (by simpa using hp) (by omega)
        rw [hb]
        show (eink_force_full_refresh s).state = s
        rw [hb]
  · intro hp2
    rw [check_noop _ hp2]

/-- Witness for C7 at a concrete reachable armed state. -/
theorem c7_witness :
    (eink_force_full_refresh (run opsArmed)).state = run opsArmed
      ∧ (eink_force_full_refresh (run opsArmed)).invalidate_calls = 0 :=
  (c7_arming_idempotent (run opsArmed) ⟨opsArmed, by decide, rfl⟩).1 (by decide)

/-- Claim C8: on an allocation-failing flush the toolkit is still
acknowledged exactly once, the hardware update degenerates to an empty
page cycle with no converted buffer, and the shadow framebuffer — hence
every bit of the flushed rectangle — keeps its previous value. -/
theorem c8_alloc_failure_degraded (s : EinkState) (x1 y1 x2 y2 : Nat) (px : List Nat) :
    (my_disp_flush s x1 y1 x2 y2 px false).flush_ready_calls = 1
      ∧ (my_disp_flush s x1 y1 x2 y2 px false).hw_pixels = []
      ∧ (my_disp_flush s x1 y1 x2 y2 px false).epd_buffer = none
      ∧ (my_disp_flush s x1 y1 x2 y2 px false).state.full_frame_buffer
          = s.full_frame_buffer
      ∧ (∀ X Y, get_full_frame_pixel
            (my_disp_flush s x1 y1 x2 y2 px false).state.full_frame_buffer X Y
          = get_full_frame_pixel s.full_frame_buffer X Y) := by
  rw [my_disp_flush_eq_false]
  by_cases hp : s.full_refresh_pending = true
  · rw [if_pos hp]
    cases hcov :
      all_rows_covered (mark_rows_covered s.full_refresh_row_bitmap y1 y2) <;>
      exact ⟨rfl, rfl, rfl, rfl, fun X Y => rfl⟩
  · rw [if_neg hp]
    exact ⟨rfl, rfl, rfl, rfl, fun X Y => rfl⟩

/-- Claim C9: row coverage marking clamps the span to the panel height:
the bitmap keeps its length, no byte at or beyond index
`ROW_BITMAP_BYTES` changes, the marked bits are exactly the rows of the
span below `SCREEN_HEIGHT`, and bits of rows at or beyond the panel height
never change — for arbitrary spans, including ones past the panel. -/
theorem c9_mark_rows_clamped (bm : List Nat) (hlen : bm.length = ROW_BITMAP_BYTES)
    (y1 y2 : Nat) :
    (mark_rows_covered bm y1 y2).length = bm.length
      ∧ (∀ i, ROW_BITMAP_BYTES ≤ i → (mark_rows_covered bm y1 y2).getD i 0 = bm.getD i 0)
      ∧ (∀ r, rowCovered (mark_rows_covered bm y1 y2) r
          = (rowCovered bm r || decide (y1 ≤ r ∧ r ≤ y2 ∧ r < SCREEN_HEIGHT)))
      ∧ (∀ r, SCREEN_HEIGHT ≤ r →
          rowCovered (mark_rows_covered bm y1 y2) r = rowCovered bm r) := by
  refine ⟨mark_rows_covered_length bm y1 y2,
    fun i hi => mark_rows_covered_getD_high bm y1 y2 i hi,
    fun r => rowCovered_mark bm hlen y1 y2 r, ?_⟩
  intro r hr
  have hdec : decide (y1 ≤ r ∧ r ≤ y2 ∧ r < SCREEN_HEIGHT) = false := by
    simp only [decide_eq_false_iff_not]
    intro hcontra
    have h1 : r < 200 := hcontra.2.2
    have h2 : 200 ≤ r := hr
    omega
  rw [rowCovered_mark bm hlen y1 y2 r, hdec, Bool.or_false]

/-- Witness for C9 on a zero bitmap and a span reaching past the panel. -/
theorem c9_witness :
    (mark_rows_covered (List.replicate 25 0) 198 500).length
        = (List.replicate 25 (0 : Nat)).length
      ∧ (∀ i, ROW_BITMAP_BYTES ≤ i →
          (mark_rows_covered (List.replicate 25 0) 198 500).getD i 0
            = (List.replicate 25 (0 : Nat)).getD i 0)
      ∧ (∀ r, rowCovered (mark_rows_covered (List.replicate 25 0) 198 500) r
          = (rowCovered (List.replicate 25 0) r
              || decide (198 ≤ r ∧ r ≤ 500 ∧ r < SCREEN_HEIGHT)))
      ∧ (∀ r, SCREEN_HEIGHT ≤ r →
          rowCovered (mark_rows_covered (List.replicate 25 0) 198 500) r
            = rowCovered (List.replicate 25 0) r) :=
  c9_mark_rows_clamped (List.replicate 25 0) (by decide) 198 500

/-- Claim C10: while the full refresh is pending, even an allocation-
failing flush marks its row span and runs the full-refresh trigger — the
refresh fires exactly when the marked bitmap is totally covered — while
the shadow framebuffer, which such a refresh would replay, keeps its stale
contents for that region. -/
theorem c10_alloc_failure_still_marks (s : EinkState) (hr : Reachable s)
    (hp : s.full_refresh_pending = true) (x1 y1 x2 y2 : Nat) (px : List Nat) :
    ((my_disp_flush s x1 y1 x2 y2 px false).did_full_refresh
        = all_rows_covered (mark_rows_covered s.full_refresh_row_bitmap y1 y2))
      ∧ ((my_disp_flush s x1 y1 x2 y2 px false).state.full_refresh_row_bitmap
          = if all_rows_covered (mark_rows_covered s.full_refresh_row_bitmap y1 y2) = true
            then List.replicate ROW_BITMAP_BYTES 0
            else mark_rows_covered s.full_refresh_row_bitmap y1 y2)
      ∧ (∀ r, r < SCREEN_HEIGHT → y1 ≤ r → r ≤ y2 →
          (my_disp_flush s x1 y1 x2 y2 px false).did_full_refresh = false →
          rowCovered
            (my_disp_flush s x1 y1 x2 y2 px false).state.full_refresh_row_bitmap r
            = true)
      ∧ ((my_disp_flush s x1 y1 x2 y2 px false).state.full_frame_buffer
          = s.full_frame_buffer) := by
  obtain ⟨-, -, hbl, hbb, -⟩ := wf_of_reachable s hr
  have hdid := flush_did_full s hp x1 y1 x2 y2 px false
  have hbm : (my_disp_flush s x1 y1 x2 y2 px false).state.full_refresh_row_bitmap
      = if all_rows_covered (mark_rows_covered s.full_refresh_row_bitmap y1 y2) = true
        then List.replicate ROW_BITMAP_BYTES 0
        else mark_rows_covered s.full_refresh_row_bitmap y1 y2 := by
    rw [my_disp_flush_eq_false, if_pos hp]
    cases hcov :
      all_rows_covered (mark_rows_covered s.full_refresh_row_bitmap y1 y2) <;> rfl
  refine ⟨hdid, hbm, ?_, ?_⟩
  · intro r hrH hy1 hy2 hnofull
    rw [hdid] at hnofull
    rw [hbm, if_neg (by simp [hnofull]), rowCovered_mark _ hbl y1 y2 r,
      show decide (y1 ≤ r ∧ r ≤ y2 ∧ r < SCREEN_HEIGHT) = true from by
        simp only [decide_eq_true_eq]
        exact ⟨hy1, hy2, hrH⟩,
      Bool.or_true]
  · rw [my_disp_flush_eq_false, if_pos hp]
    cases hcov :
      all_rows_covered (mark_rows_covered s.full_refresh_row_bitmap y1 y2) <;> rfl

/-- Witness for C10 at a concrete reachable armed state and a short
allocation-failing flush. -/
theorem c10_witness :
    ((my_disp_flush (run opsArmed) 0 0 199 10 [] false).did_full_refresh
        = all_rows_covered
            (mark_rows_covered (run opsArmed).full_refresh_row_bitmap 0 10))
      ∧ ((my_disp_flush (run opsArmed) 0 0 199 10 [] false).state.full_refresh_row_bitmap
          = if all_rows_covered
                (mark_rows_covered (run opsArmed).full_refresh_row_bitmap 0 10) = true
            then List.replicate ROW_BITMAP_BYTES 0
            else mark_rows_covered (run opsArmed).full_refresh_row_bitmap 0 10)
      ∧ (∀ r, r < SCREEN_HEIGHT → 0 ≤ r → r ≤ 10 →
          (my_disp_flush (run opsArmed) 0 0 199 10 [] false).did_full_refresh = false →
          rowCovered
            (my_disp_flush (run opsArmed) 0 0 199 10 [] false).state.full_refresh_row_bitmap
            r = true)
      ∧ ((my_disp_flush (run opsArmed) 0 0 199 10 [] false).state.full_frame_buffer
          = (run opsArmed).full_frame_buffer) :=
  c10_alloc_failure_still_marks (run opsArmed) ⟨opsArmed, by decide, rfl⟩ (by decide)
    0 0 199 10 []

end Eink
